import Mathlib

/-!
Verification development for the kcat–flux pipeline
(`medium/carbon_uptake.py`, `medium/minimal_media.py`, `flux/flux_prediction.py`,
`flux/process_fluxes.py`, `kcat_flux_mapping/mapping.py`).

Python dictionaries are embedded as insertion-ordered association lists
(`List (String × β)`); Python floats are embedded as exact rationals `ℚ`;
`round(x, 2)` is embedded as rounding to hundredths with ties to even, which
is Python's rounding mode.  External collaborators (the LP solver behind
`model.slim_optimize`, `pfba`, `flux_variability_analysis`,
`find_essential_reactions`, the taxonomy service and the kcat csv file) are
passed as explicit oracle parameters.
-/

namespace KcatFlux

/-- Lookup of a key in a Python dict embedded as an association list
(first entry wins, as dict keys are unique). -/
def dlookup {β : Type} (k : String) : List (String × β) → Option β
  | [] => none
  | kv :: rest => if kv.1 = k then some kv.2 else dlookup k rest

/-- A `Medium` maps exchange-reaction BiGG ids to uptake flux bounds
(`medium/carbon_uptake.py`, `medium/minimal_media.py`). -/
abbrev Medium := List (String × ℚ)

/-- Python dict assignment `m[k] = v`: overwrite in place when the key is
present (keeping its position), append otherwise. -/
def dictSet (m : Medium) (k : String) (v : ℚ) : Medium :=
  if (dlookup k m).isSome then m.map (fun kv => if kv.1 = k then (k, v) else kv)
  else m ++ [(k, v)]

/-- Python dict `m.pop(k)`: remove the entry with key `k` (dict keys are
unique, so removing every entry with that key is the same operation). -/
def dictPop (m : Medium) (k : String) : Medium :=
  match m with
  | [] => []
  | kv :: rest => if kv.1 = k then dictPop rest k else kv :: dictPop rest k

/-- Round a rational to the nearest integer, ties to even (Python's
rounding mode for `round`). -/
def roundHalfEven (q : ℚ) : ℤ :=
  let f := ⌊q⌋
  if q - f < 1/2 then f
  else if q - f > 1/2 then f + 1
  else if f % 2 = 0 then f else f + 1

/-- Python's `round(x, 2)` on exact rationals. -/
def round2 (q : ℚ) : ℚ := (roundHalfEven (q * 100) : ℚ) / 100

/-- The comprehension `{k: v for (k, v) in rand_c.items() if k in medium}`
from `normalize_carbon` (`medium/carbon_uptake.py`). -/
def csOf (medium : Medium) (rand_c : List (String × ℚ)) : List (String × ℚ) :=
  rand_c.filter (fun kv => (dlookup kv.1 medium).isSome)

/-- Embedding of `normalize_carbon` (`medium/carbon_uptake.py` lines 4–24):
restrict `rand_c` to the keys present in the medium, divide the carbon bound
by the summed carbon counts, round to two decimals, and assign that value to
each of those carbon sources. -/
def normalize_carbon (medium : Medium) (rand_c : List (String × ℚ))
    (total_c_bound : ℚ) : Medium :=
  let c_sources := csOf medium rand_c
  if c_sources.isEmpty then medium
  else
    let total_c := (c_sources.map (fun kv => kv.2)).sum
    let c_bound := round2 (total_c_bound / total_c)
    c_sources.foldl (fun m kv => dictSet m kv.1 c_bound) medium

/-- Pointwise form of assigning `v` to every key in `ks`. -/
def setSel (ks : List String) (v : ℚ) (kv : String × ℚ) : String × ℚ :=
  if kv.1 ∈ ks then (kv.1, v) else kv

theorem dlookup_map_setSel (ks : List String) (v : ℚ) :
    ∀ (m : Medium) (k : String),
      dlookup k (m.map (setSel ks v)) =
        (dlookup k m).map (fun b => if k ∈ ks then v else b) := by
  intro m
  induction m with
  | nil => intro k; rfl
  | cons kv rest ih =>
    intro k
    by_cases h : kv.1 = k
    · subst h
      by_cases hm : kv.1 ∈ ks <;> simp [dlookup, setSel, hm]
    · by_cases hm : kv.1 ∈ ks <;> simp [dlookup, setSel, hm, h, ih k]

theorem dictSet_of_mem (m : Medium) (k : String) (v : ℚ)
    (h : (dlookup k m).isSome) :
    dictSet m k v = m.map (setSel [k] v) := by
  rw [dictSet, if_pos h]
  congr 1
  funext kv
  by_cases hk : kv.1 = k <;> simp [setSel, hk]

theorem foldl_dictSet_eq_map (v : ℚ) :
    ∀ (ks : List String) (m : Medium), (∀ k ∈ ks, (dlookup k m).isSome) →
      ks.foldl (fun acc k => dictSet acc k v) m = m.map (setSel ks v) := by
  intro ks
  induction ks with
  | nil =>
    intro m _
    have hf : setSel [] v = fun kv => kv := funext fun kv => by simp [setSel]
    rw [List.foldl_nil, hf, List.map_id']
  | cons k ks ih =>
    intro m h
    have hk : (dlookup k m).isSome := h k (by simp)
    rw [List.foldl_cons, dictSet_of_mem m k v hk, ih]
    · rw [List.map_map]
      congr 1
      funext kv
      by_cases h1 : kv.1 = k <;> by_cases h2 : kv.1 ∈ ks <;>
        simp [setSel, h1, h2, Function.comp]
    · intro k' hk'
      rw [dlookup_map_setSel]
      simpa using h k' (List.mem_cons_of_mem _ hk')

/-- Keys of the filtered carbon sources are all present in the medium. -/
theorem csOf_keys_present (m : Medium) (rc : List (String × ℚ)) :
    ∀ k ∈ (csOf m rc).map (fun kv => kv.1), (dlookup k m).isSome := by
  intro k hk
  rcases List.mem_map.1 hk with ⟨kv, hkv, hfst⟩
  rcases List.mem_filter.1 hkv with ⟨_, hp⟩
  subst hfst
  simpa using hp

theorem normalize_carbon_eq_map (m : Medium) (rc : List (String × ℚ)) (b : ℚ)
    (h : ¬ (csOf m rc).isEmpty) :
    normalize_carbon m rc b =
      m.map (setSel ((csOf m rc).map (fun kv => kv.1))
        (round2 (b / ((csOf m rc).map (fun kv => kv.2)).sum))) := by
  rw [normalize_carbon]
  simp only [h, if_neg, Bool.false_eq_true, not_false_iff, if_false]
  have := List.foldl_map (fun kv : String × ℚ => kv.1)
    (fun (acc : Medium) (k : String) =>
      dictSet acc k (round2 (b / ((csOf m rc).map (fun kv => kv.2)).sum)))
    (csOf m rc) m
  rw [← this]
  exact foldl_dictSet_eq_map _ _ m (csOf_keys_present m rc)

/-- Normalization never changes which keys the medium has. -/
theorem dlookup_normalize_isSome (m : Medium) (rc : List (String × ℚ)) (b : ℚ)
    (k : String) :
    (dlookup k (normalize_carbon m rc b)).isSome = (dlookup k m).isSome := by
  by_cases h : (csOf m rc).isEmpty
  · rw [normalize_carbon]
    simp [h]
  · rw [normalize_carbon_eq_map m rc b h, dlookup_map_setSel]
    cases dlookup k m <;> simp

theorem csOf_normalize (m : Medium) (rc : List (String × ℚ)) (b : ℚ) :
    csOf (normalize_carbon m rc b) rc = csOf m rc := by
  apply List.filter_congr
  intro kv _
  rw [dlookup_normalize_isSome]

/-- Claim C9: carbon normalization is idempotent.  Re-running
`normalize_carbon` with the same chosen carbon sources and bound recomputes
the same per-source value over the same key set, so the medium is unchanged. -/
theorem normalize_carbon_idem (m : Medium) (rc : List (String × ℚ)) (b : ℚ) :
    normalize_carbon (normalize_carbon m rc b) rc b = normalize_carbon m rc b := by
  by_cases h : (csOf m rc).isEmpty
  · have e1 : normalize_carbon m rc b = m := by rw [normalize_carbon]; simp [h]
    rw [e1]
    exact e1
  · have h2 : ¬ (csOf (normalize_carbon m rc b) rc).isEmpty := by
      rw [csOf_normalize]; exact h
    rw [normalize_carbon_eq_map _ rc b h2, csOf_normalize,
      normalize_carbon_eq_map m rc b h, List.map_map]
    congr 1
    funext kv
    by_cases hm : kv.1 ∈ (csOf m rc).map (fun kv => kv.1) <;>
      simp [setSel, hm, Function.comp]

/-- An entry of an association list makes lookup of its key succeed. -/
theorem dlookup_isSome_of_mem {β : Type} (kv : String × β) (l : List (String × β))
    (h : kv ∈ l) : (dlookup kv.1 l).isSome := by
  induction l with
  | nil => cases h
  | cons hd tl ih =>
    rcases List.mem_cons.1 h with h' | h'
    · subst h'; simp [dlookup]
    · by_cases he : hd.1 = kv.1 <;> simp [dlookup, he, ih h']

/-- Normalization leaves entries whose key is not among the chosen carbon
sources untouched. -/
theorem dlookup_normalize_of_not_key (m : Medium) (rc : List (String × ℚ))
    (b : ℚ) (k : String) (hk : dlookup k rc = none) :
    dlookup k (normalize_carbon m rc b) = dlookup k m := by
  by_cases h : (csOf m rc).isEmpty
  · rw [normalize_carbon]; simp [h]
  · rw [normalize_carbon_eq_map m rc b h, dlookup_map_setSel]
    have hnot : k ∉ (csOf m rc).map (fun kv => kv.1) := by
      intro hmem
      rcases List.mem_map.1 hmem with ⟨kv, hkv, hfst⟩
      have hrc : kv ∈ rc := (List.mem_filter.1 hkv).1
      subst hfst
      have := dlookup_isSome_of_mem kv rc hrc
      rw [hk] at this
      cases this
    cases dlookup k m <;> simp [hnot]

/-- Claim C3 (amended): entries that are not chosen carbon sources keep their
value; every chosen carbon source present in the medium receives the rounded
per-source value `round2 (bound / total_c)`; consequently the summed carbon
contribution equals `total_c * round2 (bound / total_c)` — the carbon bound
only up to the two-decimal rounding of the per-source uptake. -/
theorem normalize_carbon_spec (m : Medium) (rc : List (String × ℚ)) (b : ℚ) :
    (∀ k, dlookup k rc = none →
      dlookup k (normalize_carbon m rc b) = dlookup k m) ∧
    (¬ (csOf m rc).isEmpty →
      (∀ kv ∈ csOf m rc,
        dlookup kv.1 (normalize_carbon m rc b) =
          some (round2 (b / ((csOf m rc).map (fun kv => kv.2)).sum))) ∧
      ((csOf m rc).map
          (fun kv => round2 (b / ((csOf m rc).map (fun kv => kv.2)).sum) * kv.2)).sum =
        ((csOf m rc).map (fun kv => kv.2)).sum *
          round2 (b / ((csOf m rc).map (fun kv => kv.2)).sum)) := by
  constructor
  · exact dlookup_normalize_of_not_key m rc b
  · intro h
    constructor
    · intro kv hkv
      rw [normalize_carbon_eq_map m rc b h, dlookup_map_setSel]
      have hmem : kv.1 ∈ (csOf m rc).map (fun kv => kv.1) :=
        List.mem_map.2 ⟨kv, hkv, rfl⟩
      have hpres : (dlookup kv.1 m).isSome := csOf_keys_present m rc kv.1 hmem
      cases hdl : dlookup kv.1 m with
      | none => rw [hdl] at hpres; cases hpres
      | some w => simp [hmem]
    · rw [List.sum_map_mul_left]
      exact mul_comm _ _

/-- Witness for the amended claim C3, at the spec's concrete scenario:
medium `{EX_glc__D_e: 10, EX_fru_e: 10}`, sampled carbon sources
`{EX_fru_e: 6}`, carbon bound 20.  Glucose (not a sampled carbon source)
keeps its bound and fructose gets `round(20/6, 2) = 3.33`. -/
theorem normalize_carbon_spec_witness :
    dlookup "EX_glc__D_e"
        (normalize_carbon [("EX_glc__D_e", 10), ("EX_fru_e", 10)]
          [("EX_fru_e", 6)] 20) = some 10 ∧
    dlookup "EX_fru_e"
        (normalize_carbon [("EX_glc__D_e", 10), ("EX_fru_e", 10)]
          [("EX_fru_e", 6)] 20) = some (333/100) := by
  constructor
  · exact (normalize_carbon_spec [("EX_glc__D_e", 10), ("EX_fru_e", 10)]
      [("EX_fru_e", 6)] 20).1 "EX_glc__D_e" (by simp [dlookup])
  · have h := ((normalize_carbon_spec [("EX_glc__D_e", 10), ("EX_fru_e", 10)]
      [("EX_fru_e", 6)] 20).2 (by simp [csOf, dlookup])).1 ("EX_fru_e", 6)
      (by simp [csOf, dlookup])
    rw [h]
    simp only [csOf, dlookup]
    norm_num [round2, roundHalfEven]

/-- Counterexample to claim C3 as stated: in the spec's own scenario the
chosen carbon source `EX_fru_e` is set to `round(20/6, 2) = 3.33`, and
`6 × 3.33 = 19.98 ≠ 20`, so the summed carbon contribution does not equal the
carbon bound (the claimed exact equality `6 × uptake = 20` fails). -/
theorem normalize_carbon_claim_counterexample :
    dlookup "EX_fru_e"
        (normalize_carbon [("EX_glc__D_e", 10), ("EX_fru_e", 10)]
          [("EX_fru_e", 6)] 20) = some (333/100) ∧
    ¬ ((6 : ℚ) * (333/100) = 20) := by
  constructor
  · have hr : round2 ((20 : ℚ) / 6) = 333/100 := by norm_num [round2, roundHalfEven]
    simp [normalize_carbon, csOf, dlookup, dictSet, setSel, hr]
  · norm_num

/-- An exchange reaction of a genome-scale model: its BiGG id and the id of
the exchanged metabolite (the source recovers the metabolite id by parsing
`str(exchanges.get_by_id(uptake).metabolites)`; the embedding carries it
directly). -/
structure ExchangeR where
  id : String
  metId : String
deriving DecidableEq

/-- The mutable state of a cobra model that the pipeline reads and
temporarily overrides: identifier, medium, exchange bounds, exchange
reactions, and the carbon counts `metabolite.elements.get('C')` of the
metabolites (`none` when the element is absent). -/
structure Model where
  id : String
  medium : Medium
  bounds : List (String × ℚ × ℚ)
  exchanges : List ExchangeR
  metabolites : List (String × Option ℕ)
deriving DecidableEq

/-- Embedding of a `with model:` block (cobra's `HistoryManager`): the body
runs on the model, mutating it, and on exit the model is restored to its
state before the block. -/
def withModel {α : Type} (s : Model) (body : Model → α × Model) : α × Model :=
  ((body s).1, s)

/-- Embedding of a `with model:` block whose body may signal solver
infeasibility: the model is restored on both the normal and the error exit
path. -/
def withModelE {α ε : Type} (s : Model) (body : Model → Except ε (α × Model)) :
    Except ε α × Model :=
  match body s with
  | .ok (a, _) => (.ok a, s)
  | .error e => (.error e, s)

/-- The hardcoded per-model baseline carbon sources of `is_carbon_source`
(`medium/carbon_uptake.py` lines 60–67). -/
def init_c : List (String × List String) :=
  [("iJN1463", ["EX_glc__D_e"]),
   ("iIT341", ["EX_ala__D_e", "EX_ala__L_e"]),
   ("iHN637", ["EX_fru_e"]),
   ("iECO111_1330", ["EX_glc__D_e"]),
   ("iEK1008", ["EX_glyc_e", "EX_cit_e", "EX_etoh_e", "EX_asn__L_e"]),
   ("iSbBS512_1146", ["EX_glc__D_e"])]

/-- Embedding of `is_carbon_source` (`medium/carbon_uptake.py` lines 48–82).
`opt` is the external LP oracle behind `model.slim_optimize`.  The dict
access `init_c[model.id]` raises `KeyError` (`Except.error ()`) when the
model id is not one of the six baseline ids.  Otherwise the baseline carbon
sources present in a copy of the medium are zeroed, the candidate uptake is
opened at 1000, and growth is checked inside a `with model:` block. -/
def is_carbon_source (opt : Model → ℚ) (s : Model) (uptake : String) :
    Except Unit Bool × Model :=
  match dlookup s.id init_c with
  | none => (.error (), s)
  | some srcs =>
    if uptake ∈ srcs then (.ok true, s)
    else
      let medium := srcs.foldl
        (fun m c => if (dlookup c m).isSome then dictSet m c 0 else m) s.medium
      let medium := dictSet medium uptake 1000
      let gr := (withModel s (fun t =>
        let t' := { t with medium := medium }
        (opt t', t'))).1
      (.ok (gr > 1/10), s)

/-- The truthiness test `if count_c` of `find_c_sources`: the carbon count of
an exchange's metabolite, with Python's falsy `None` and `0` collapsed to 0. -/
def carbonCount (s : Model) (ex : ExchangeR) : ℕ :=
  ((dlookup ex.metId s.metabolites).join).getD 0

/-- One step of the `find_c_sources` loop body: skip exchanges without
carbon, otherwise consult `is_carbon_source` (whose `KeyError` aborts the
whole loop). -/
def find_c_sources_step (opt : Model → ℚ) (s : Model)
    (acc : Except Unit (List (String × ℕ))) (ex : ExchangeR) :
    Except Unit (List (String × ℕ)) :=
  match acc with
  | .error e => .error e
  | .ok cs =>
    if carbonCount s ex = 0 then .ok cs
    else
      match (is_carbon_source opt s ex.id).1 with
      | .error e => .error e
      | .ok true => .ok (cs ++ [(ex.id, carbonCount s ex)])
      | .ok false => .ok cs

/-- Embedding of `find_c_sources` (`medium/carbon_uptake.py` lines 27–45):
for every exchange whose metabolite contains carbon, keep it if
`is_carbon_source` approves it. -/
def find_c_sources (opt : Model → ℚ) (s : Model) :
    Except Unit (List (String × ℕ)) × Model :=
  (s.exchanges.foldl (find_c_sources_step opt s) (.ok []), s)

theorem find_c_sources_step_error (opt : Model → ℚ) (s : Model) :
    ∀ l : List ExchangeR, l.foldl (find_c_sources_step opt s) (.error ()) = .error () := by
  intro l
  induction l with
  | nil => rfl
  | cons hd tl ih => simpa [find_c_sources_step] using ih

/-- Claim C10 (amended): for a model whose id is not one of the six baseline
ids, `is_carbon_source` raises `KeyError` for every candidate uptake, and
`find_c_sources` propagates that `KeyError` as soon as at least one exchange
metabolite has a nonzero carbon count (a model without any carbon-bearing
exchange returns normally because `is_carbon_source` is never called). -/
theorem unknown_model_raises (opt : Model → ℚ) (s : Model) (uptake : String)
    (h : dlookup s.id init_c = none) :
    (is_carbon_source opt s uptake).1 = .error () ∧
    ((∃ ex ∈ s.exchanges, carbonCount s ex ≠ 0) →
      (find_c_sources opt s).1 = .error ()) := by
  have hic : ∀ u : String, (is_carbon_source opt s u).1 = .error () := by
    intro u
    rw [is_carbon_source, h]
  refine ⟨hic uptake, ?_⟩
  rintro ⟨ex, hex, hc⟩
  rw [find_c_sources]
  have main : ∀ (l : List ExchangeR) (cs : List (String × ℕ)),
      (∃ e ∈ l, carbonCount s e ≠ 0) →
      l.foldl (find_c_sources_step opt s) (.ok cs) = .error () := by
    intro l
    induction l with
    | nil => rintro cs ⟨e, he, _⟩; cases he
    | cons hd tl ih =>
      rintro cs ⟨e, he, hce⟩
      rcases List.mem_cons.1 he with h' | h'
      · subst h'
        have : find_c_sources_step opt s (.ok cs) e = .error () := by
          rw [find_c_sources_step]
          simp only [if_neg hce, hic e.id]
        rw [List.foldl_cons, this, find_c_sources_step_error]
      · by_cases hhd : carbonCount s hd = 0
        · rw [List.foldl_cons]
          have : find_c_sources_step opt s (.ok cs) hd = .ok cs := by
            rw [find_c_sources_step]
            simp [hhd]
          rw [this]
          exact ih cs ⟨e, h', hce⟩
        · rw [List.foldl_cons]
          have : find_c_sources_step opt s (.ok cs) hd = .error () := by
            rw [find_c_sources_step]
            simp only [if_neg hhd, hic hd.id]
          rw [this, find_c_sources_step_error]
  exact main s.exchanges [] ⟨ex, hex, hc⟩

/-- Witness for the amended claim C10: a model with id `iML1515` (not among
the six baseline ids) and one carbon-bearing exchange makes both
`is_carbon_source` and `find_c_sources` raise `KeyError`. -/
theorem unknown_model_raises_witness :
    (is_carbon_source (fun _ => 0)
      { id := "iML1515", medium := [], bounds := [],
        exchanges := [⟨"EX_x_e", "x_e"⟩],
        metabolites := [("x_e", some 6)] } "EX_x_e").1 = .error () ∧
    (find_c_sources (fun _ => 0)
      { id := "iML1515", medium := [], bounds := [],
        exchanges := [⟨"EX_x_e", "x_e"⟩],
        metabolites := [("x_e", some 6)] }).1 = .error () := by
  have h := unknown_model_raises (fun _ => 0)
    { id := "iML1515", medium := [], bounds := [],
      exchanges := [⟨"EX_x_e", "x_e"⟩],
      metabolites := [("x_e", some 6)] } "EX_x_e" (by simp [init_c, dlookup])
  exact ⟨h.1, h.2 ⟨⟨"EX_x_e", "x_e"⟩, by simp, by simp [carbonCount, dlookup]⟩⟩

/-- Counterexample to claim C10 as stated: a model whose id `iML1515` is not
among the six baseline ids but none of whose exchange metabolites contains
carbon makes `find_c_sources` return the empty map normally instead of
raising `KeyError` (`is_carbon_source` is short-circuited away by the falsy
carbon count). -/
theorem unknown_model_raises_counterexample :
    dlookup "iML1515" init_c = none ∧
    (find_c_sources (fun _ => 0)
      { id := "iML1515", medium := [], bounds := [],
        exchanges := [⟨"EX_x_e", "x_e"⟩],
        metabolites := [("x_e", none)] }).1 = .ok [] := by
  constructor
  · simp [init_c, dlookup]
  · simp [find_c_sources, find_c_sources_step, carbonCount, dlookup]

theorem dlookup_dictPop_ne (m : Medium) (u k : String) (h : ¬ k = u) :
    dlookup k (dictPop m u) = dlookup k m := by
  have hku : ¬ u = k := fun hc => h hc.symm
  induction m with
  | nil => rfl
  | cons hd tl ih =>
    by_cases hh : hd.1 = u
    · have hdk : ¬ hd.1 = k := by rw [hh]; exact hku
      simp [dictPop, dlookup, hh, hdk, hku, ih]
    · by_cases hk : hd.1 = k <;> simp [dictPop, dlookup, hh, hk, h, hku, ih]

theorem dlookup_dictPop_self (m : Medium) (u : String) :
    dlookup u (dictPop m u) = none := by
  induction m with
  | nil => rfl
  | cons hd tl ih =>
    by_cases hh : hd.1 = u <;> simp [dictPop, dlookup, hh, ih]

theorem dlookup_dictPop_isSome (m : Medium) (u k : String)
    (h : (dlookup k (dictPop m u)).isSome) : (dlookup k m).isSome := by
  by_cases hk : k = u
  · rw [hk, dlookup_dictPop_self m u] at h
    cases h
  · rwa [dlookup_dictPop_ne m u k hk] at h

/-- One iteration of the `minimize_medium` loop
(`medium/minimal_media.py` lines 107–117): copy the medium, pop the uptake,
re-normalize carbon if the uptake was a chosen carbon source, query growth
inside a `with model:` block, and roll back if growth is not sustained. -/
def minimize_step (opt : Model → ℚ) (s : Model) (rand_c : List (String × ℚ))
    (c_bound : ℚ) (medium : Medium) (uptake : String) : Medium :=
  let old_medium := medium
  let medium1 := dictPop medium uptake
  let medium2 := if (dlookup uptake rand_c).isSome
    then normalize_carbon medium1 rand_c c_bound else medium1
  let growth_rate := (withModel s (fun t =>
    let t' := { t with medium := medium2 }
    (opt t', t'))).1
  if ¬ growth_rate > 1/10 then old_medium else medium2

/-- Embedding of `minimize_medium` (`medium/minimal_media.py` lines 92–121).
`opt` is the LP oracle behind `model.slim_optimize`; `uptakes` is the list
`random.shuffle(list(set(medium) - set(ess_ex)))` — the randomly ordered
non-essential uptakes, supplied as an explicit parameter because the random
order is external input.  The returned model equals the input model: every
growth query runs inside a `with model:` block. -/
def minimize_medium (opt : Model → ℚ) (s : Model) (medium : Medium)
    (rand_c : List (String × ℚ)) (c_bound : ℚ) (ess_ex : List String)
    (uptakes : List String) : Medium × Model :=
  (uptakes.foldl (minimize_step opt s rand_c c_bound) medium, s)

/-- Each loop iteration of `minimize_medium` either rolls back, keeps the
popped-and-renormalized medium, or keeps the merely popped medium. -/
theorem minimize_step_cases (opt : Model → ℚ) (s : Model)
    (rand_c : List (String × ℚ)) (c_bound : ℚ) (medium : Medium)
    (uptake : String) :
    minimize_step opt s rand_c c_bound medium uptake = medium ∨
    minimize_step opt s rand_c c_bound medium uptake =
      normalize_carbon (dictPop medium uptake) rand_c c_bound ∨
    minimize_step opt s rand_c c_bound medium uptake = dictPop medium uptake := by
  rw [minimize_step]
  by_cases hrc : (dlookup uptake rand_c).isSome
  · simp only [hrc, if_true]
    split
    · left; rfl
    · right; left; rfl
  · simp only [Bool.not_eq_true] at hrc
    simp only [hrc, Bool.false_eq_true, if_false]
    split
    · left; rfl
    · right; right; rfl

theorem minimize_step_isSome (opt : Model → ℚ) (s : Model)
    (rand_c : List (String × ℚ)) (c_bound : ℚ) (medium : Medium)
    (uptake k : String)
    (h : (dlookup k (minimize_step opt s rand_c c_bound medium uptake)).isSome) :
    (dlookup k medium).isSome := by
  rcases minimize_step_cases opt s rand_c c_bound medium uptake with hc | hc | hc <;>
    rw [hc] at h
  · exact h
  · rw [dlookup_normalize_isSome] at h
    exact dlookup_dictPop_isSome medium uptake k h
  · exact dlookup_dictPop_isSome medium uptake k h

theorem minimize_step_pres_isSome (opt : Model → ℚ) (s : Model)
    (rand_c : List (String × ℚ)) (c_bound : ℚ) (medium : Medium)
    (uptake k : String) (hne : ¬ k = uptake)
    (h : (dlookup k medium).isSome) :
    (dlookup k (minimize_step opt s rand_c c_bound medium uptake)).isSome := by
  rcases minimize_step_cases opt s rand_c c_bound medium uptake with hc | hc | hc <;>
    rw [hc]
  · exact h
  · rw [dlookup_normalize_isSome, dlookup_dictPop_ne medium uptake k hne]
    exact h
  · rw [dlookup_dictPop_ne medium uptake k hne]
    exact h

theorem minimize_step_pres_value (opt : Model → ℚ) (s : Model)
    (rand_c : List (String × ℚ)) (c_bound : ℚ) (medium : Medium)
    (uptake k : String) (hne : ¬ k = uptake) (hrc : dlookup k rand_c = none) :
    dlookup k (minimize_step opt s rand_c c_bound medium uptake) =
      dlookup k medium := by
  rcases minimize_step_cases opt s rand_c c_bound medium uptake with hc | hc | hc <;>
    rw [hc]
  · rw [dlookup_normalize_of_not_key _ rand_c c_bound k hrc,
      dlookup_dictPop_ne medium uptake k hne]
  · rw [dlookup_dictPop_ne medium uptake k hne]

theorem minimize_fold_isSome (opt : Model → ℚ) (s : Model)
    (rand_c : List (String × ℚ)) (c_bound : ℚ) (k : String) :
    ∀ (ups : List String) (medium : Medium),
      (dlookup k (ups.foldl (minimize_step opt s rand_c c_bound) medium)).isSome →
      (dlookup k medium).isSome := by
  intro ups
  induction ups with
  | nil => intro medium h; exact h
  | cons hd tl ih =>
    intro medium h
    rw [List.foldl_cons] at h
    exact minimize_step_isSome opt s rand_c c_bound medium hd k (ih _ h)

theorem minimize_fold_pres_isSome (opt : Model → ℚ) (s : Model)
    (rand_c : List (String × ℚ)) (c_bound : ℚ) (k : String) :
    ∀ (ups : List String), (∀ u ∈ ups, ¬ k = u) → ∀ medium : Medium,
      (dlookup k medium).isSome →
      (dlookup k (ups.foldl (minimize_step opt s rand_c c_bound) medium)).isSome := by
  intro ups
  induction ups with
  | nil => intro _ medium h; exact h
  | cons hd tl ih =>
    intro hne medium h
    rw [List.foldl_cons]
    exact ih (fun u hu => hne u (List.mem_cons_of_mem _ hu)) _
      (minimize_step_pres_isSome opt s rand_c c_bound medium hd k
        (hne hd (List.mem_cons_self _ _)) h)

theorem minimize_fold_pres_value (opt : Model → ℚ) (s : Model)
    (rand_c : List (String × ℚ)) (c_bound : ℚ) (k : String)
    (hrc : dlookup k rand_c = none) :
    ∀ (ups : List String), (∀ u ∈ ups, ¬ k = u) → ∀ medium : Medium,
      dlookup k (ups.foldl (minimize_step opt s rand_c c_bound) medium) =
        dlookup k medium := by
  intro ups
  induction ups with
  | nil => intro _ medium; rfl
  | cons hd tl ih =>
    intro hne medium
    rw [List.foldl_cons, ih (fun u hu => hne u (List.mem_cons_of_mem _ hu)),
      minimize_step_pres_value opt s rand_c c_bound medium hd k
        (hne hd (List.mem_cons_self _ _)) hrc]

/-- Claim C4 (amended): the minimized medium's keys are a subset of the
input medium's keys, and — provided the visited uptakes avoid the essential
exchanges, as `set(medium) - set(ess_ex)` guarantees — every essential
exchange present in the input stays present; its bound is unchanged when it
is not among the chosen carbon sources (a chosen essential carbon source can
be rescaled by the carbon re-normalization). -/
theorem minimize_medium_props (opt : Model → ℚ) (s : Model) (medium : Medium)
    (rand_c : List (String × ℚ)) (c_bound : ℚ) (ess_ex : List String)
    (uptakes : List String) (hU : ∀ u ∈ uptakes, u ∉ ess_ex) :
    (∀ k, (dlookup k (minimize_medium opt s medium rand_c c_bound ess_ex uptakes).1).isSome →
      (dlookup k medium).isSome) ∧
    (∀ e ∈ ess_ex, ∀ v, dlookup e medium = some v →
      (dlookup e (minimize_medium opt s medium rand_c c_bound ess_ex uptakes).1).isSome ∧
      (dlookup e rand_c = none →
        dlookup e (minimize_medium opt s medium rand_c c_bound ess_ex uptakes).1 = some v)) := by
  rw [minimize_medium]
  constructor
  · intro k
    exact minimize_fold_isSome opt s rand_c c_bound k uptakes medium
  · intro e he v hv
    have hne : ∀ u ∈ uptakes, ¬ e = u := by
      intro u hu hc
      exact hU u hu (hc ▸ he)
    constructor
    · have hs : (dlookup e medium).isSome := by rw [hv]; rfl
      exact minimize_fold_pres_isSome opt s rand_c c_bound e uptakes hne medium hs
    · intro hrc
      rw [minimize_fold_pres_value opt s rand_c c_bound e hrc uptakes hne medium]
      exact hv

/-- Witness for the amended claim C4 at a concrete input: minimizing the
medium `{A: 1, B: 2}` with essential exchange `A`, visited uptake `B`, and
no chosen carbon sources leaves `A` at its original bound. -/
theorem minimize_medium_props_witness :
    dlookup "A" (minimize_medium (fun _ => 1)
      { id := "m", medium := [], bounds := [], exchanges := [], metabolites := [] }
      [("A", 1), ("B", 2)] [] 0 ["A"] ["B"]).1 = some 1 :=
  ((minimize_medium_props (fun _ => 1)
      { id := "m", medium := [], bounds := [], exchanges := [], metabolites := [] }
      [("A", 1), ("B", 2)] [] 0 ["A"] ["B"]
      (by intro u hu; simp at hu; subst hu; simp)).2
    "A" (by simp) 1 (by simp [dlookup])).2 (by simp [dlookup])

/-- Counterexample to claim C4 as stated: glucose is an essential exchange
and also one of the chosen carbon sources; after the non-essential carbon
source `EX_fru_e` is removed, the carbon re-normalization rescales
glucose's uptake from 10 to `round(20/6, 2) = 3.33`, so the essential
exchange does not keep its original bound. -/
theorem minimize_medium_counterexample :
    dlookup "EX_glc__D_e"
        ([("EX_glc__D_e", (10 : ℚ)), ("EX_fru_e", 10)] : Medium) = some 10 ∧
    dlookup "EX_glc__D_e"
      (minimize_medium (fun _ => 1)
        { id := "m", medium := [], bounds := [], exchanges := [], metabolites := [] }
        [("EX_glc__D_e", 10), ("EX_fru_e", 10)]
        [("EX_glc__D_e", 6), ("EX_fru_e", 6)] 20 ["EX_glc__D_e"]
        ["EX_fru_e"]).1 = some (333/100) ∧
    ¬ ((333 : ℚ)/100 = 10) := by
  refine ⟨by simp [dlookup], ?_, by norm_num⟩
  have hr : round2 ((20 : ℚ) / 6) = 333/100 := by norm_num [round2, roundHalfEven]
  have hg : ¬ ((1 : ℚ) ≤ 10⁻¹) := by norm_num
  simp [minimize_medium, minimize_step, dictPop, dlookup, withModel,
    normalize_carbon, csOf, dictSet, setSel, hr, hg]

/-- One random draw of `create_medium`
(`medium/minimal_media.py` lines 57–84): the sampled non-carbon exchanges,
the sampled carbon sources (`dict(random.sample(c_sources.items(), ...))`,
mapping ids to carbon counts), and the oxygen coin `random.random() < 0.5`. -/
structure MediumChoice where
  rand_ex : List String
  rand_c : List (String × ℚ)
  o2 : Bool

/-- The body of one `while True` iteration of `create_medium`: start from
the essential entries of the model's medium, add the sampled exchanges and
carbon sources at bound 10, normalize carbon, and decide oxygen. -/
def create_medium_body (s : Model) (c_bound : ℚ) (ess_ex : List String)
    (ch : MediumChoice) : Medium × List (String × ℚ) :=
  let o2_flux := (dlookup "EX_o2_e" s.medium).getD 1000
  let medium := s.medium.filter (fun kv => kv.1 ∈ ess_ex)
  let medium := (ch.rand_ex ++ ch.rand_c.map (fun kv => kv.1)).foldl
    (fun m u => dictSet m u 10) medium
  let medium := normalize_carbon medium ch.rand_c c_bound
  let medium :=
    if s.exchanges.any (fun e => e.id = "EX_o2_e") then
      if ch.o2 || "EX_o2_e" ∈ ess_ex then dictSet medium "EX_o2_e" o2_flux
      else dictSet medium "EX_o2_e" 0
    else medium
  (medium, ch.rand_c)

/-- Fuel-indexed unfolding of the unbounded `while True` loop of
`create_medium` (`medium/minimal_media.py` lines 57–89).  The source has no
fuel: `none` does not mean a reported failure, it means the loop is still
running after the given number of iterations.  `choices k` is the fresh
random draw of iteration `k`; the growth check runs inside a
`with model:` block. -/
def create_medium_go (opt : Model → ℚ) (s : Model)
    (c_sources : List (String × ℕ)) (c_bound : ℚ) (ess_ex : List String)
    (choices : ℕ → MediumChoice) : ℕ → ℕ → Option (Medium × List (String × ℚ))
  | _, 0 => none
  | k, fuel + 1 =>
    let mr := create_medium_body s c_bound ess_ex (choices k)
    let gr := (withModel s (fun t =>
      let t' := { t with medium := mr.1 }
      (opt t', t'))).1
    if gr > 1/10 then some mr
    else create_medium_go opt s c_sources c_bound ess_ex choices (k + 1) fuel

/-- Embedding of `create_medium`: run the retry loop (with explicit fuel)
from iteration 0.  `c_sources` feeds only the random sampling, which is
externalized into `choices`. -/
def create_medium (opt : Model → ℚ) (s : Model)
    (c_sources : List (String × ℕ)) (c_bound : ℚ) (ess_ex : List String)
    (choices : ℕ → MediumChoice) (fuel : ℕ) :
    Option (Medium × List (String × ℚ)) × Model :=
  (create_medium_go opt s c_sources c_bound ess_ex choices 0 fuel, s)

theorem create_medium_go_stuck (s : Model) (c_sources : List (String × ℕ))
    (c_bound : ℚ) (ess_ex : List String) (choices : ℕ → MediumChoice) :
    ∀ (fuel k : ℕ),
      create_medium_go (fun _ => 0) s c_sources c_bound ess_ex choices k fuel = none := by
  intro fuel
  induction fuel with
  | zero => intro k; rfl
  | succ n ih =>
    intro k
    rw [create_medium_go]
    have : ¬ ((0 : ℚ) > 1/10) := by norm_num
    simp only [withModel, this, if_false]
    exact ih (k + 1)

/-- Claim C6 concerns a retry cap that the code does not have: with a growth
oracle that never exceeds the 0.1 threshold (every candidate infeasible or
sub-threshold), the `while True` loop of `create_medium` never exits — for
every fuel bound the fuel-indexed unfolding is still looping, and no
discovery failure is ever reported. -/
theorem create_medium_never_terminates (s : Model)
    (c_sources : List (String × ℕ)) (c_bound : ℚ) (ess_ex : List String)
    (choices : ℕ → MediumChoice) (fuel : ℕ) :
    (create_medium (fun _ => 0) s c_sources c_bound ess_ex choices fuel).1 = none := by
  rw [create_medium]
  exact create_medium_go_stuck s c_sources c_bound ess_ex choices fuel 0

/-- Widening of every exchange reaction's bounds to at least `[-1000, 1000]`,
as done by `fva_all_uptakes` and `find_essential_exc`. -/
def widenBounds (s : Model) : Model :=
  { s with bounds := s.bounds.map (fun b => (b.1, min b.2.1 (-1000), max b.2.2 1000)) }

/-- The `try/except Infeasible: pass` around one solver call: append the
column on success, keep the accumulator unchanged on infeasibility. -/
def tryAppend {γ : Type} (acc1 : List γ) (w : Except Unit γ × Model) :
    List γ × Model :=
  match w with
  | (.ok fl, st) => (acc1 ++ [fl], st)
  | (.error _, st) => (acc1, st)

/-- One medium of the `pfba_for_media` loop (`flux/flux_prediction.py`
lines 17–26): set the medium inside a `with model:` block, run the pfba
solver, append its flux column on success and skip the medium on
`Infeasible`. -/
def pfba_step (solve : Model → Except Unit (List (String × ℚ)))
    (acc : List (List (String × ℚ)) × Model) (m : Medium) :
    List (List (String × ℚ)) × Model :=
  tryAppend acc.1 (withModelE acc.2 (fun t =>
    let t' := { t with medium := m }
    (solve t').map (fun fl => (fl, t'))))

/-- Embedding of `pfba_for_media` (`flux/flux_prediction.py` lines 6–26).
`solve` is the external `pfba` solver, which may signal `Infeasible`. -/
def pfba_for_media (solve : Model → Except Unit (List (String × ℚ)))
    (s : Model) (media : List Medium) : List (List (String × ℚ)) × Model :=
  media.foldl (pfba_step solve) ([], s)

/-- One medium of the `fva_for_media` loop (`flux/flux_prediction.py`
lines 62–93): set the medium inside a `with model:` block, run the
variability solver on the requested reactions, append the column on success
and skip the medium on `Infeasible`. -/
def fva_step (solveV : Model → List String → Except Unit (List (String × ℚ × ℚ)))
    (reaction_list : List String)
    (acc : List (List (String × ℚ × ℚ)) × Model) (m : Medium) :
    List (List (String × ℚ × ℚ)) × Model :=
  tryAppend acc.1 (withModelE acc.2 (fun t =>
    let t' := { t with medium := m }
    (solveV t' reaction_list).map (fun fl => (fl, t'))))

/-- Embedding of `fva_for_media` (`flux/flux_prediction.py` lines 62–93). -/
def fva_for_media (solveV : Model → List String → Except Unit (List (String × ℚ × ℚ)))
    (s : Model) (media : List Medium) (reaction_list : List String) :
    List (List (String × ℚ × ℚ)) × Model :=
  media.foldl (fva_step solveV reaction_list) ([], s)

/-- Embedding of `fva_all_uptakes` (`flux/flux_prediction.py` lines 29–59):
inside a `with model:` block, widen every exchange bound and run one
variability solve; `Infeasible` yields an empty table. -/
def fva_all_uptakes (solveV : Model → List String → Except Unit (List (String × ℚ × ℚ)))
    (s : Model) (reaction_list : List String) :
    List (String × ℚ × ℚ) × Model :=
  withModel s (fun t =>
    let t' := widenBounds t
    (match solveV t' reaction_list with
      | .ok d => d
      | .error _ => [], t'))

/-- Embedding of `find_essential_exc` (`medium/minimal_media.py` lines
124–135): inside a `with model:` block, widen every exchange bound, ask the
external `find_essential_reactions` oracle, and keep the ids starting with
`EX`. -/
def find_essential_exc (essOracle : Model → List String) (s : Model) :
    List String × Model :=
  withModel s (fun t =>
    let t' := widenBounds t
    ((essOracle t').filter (fun r => r.startsWith "EX"), t'))

theorem withModelE_snd {α ε : Type} (s : Model)
    (body : Model → Except ε (α × Model)) : (withModelE s body).2 = s := by
  rw [withModelE]
  cases body s with
  | ok p => rfl
  | error e => rfl

theorem tryAppend_snd {γ : Type} (acc1 : List γ) (w : Except Unit γ × Model) :
    (tryAppend acc1 w).2 = w.2 := by
  rcases w with ⟨r, st⟩
  cases r <;> rfl

theorem pfba_step_snd (solve : Model → Except Unit (List (String × ℚ)))
    (acc : List (List (String × ℚ)) × Model) (m : Medium) :
    (pfba_step solve acc m).2 = acc.2 := by
  rw [pfba_step, tryAppend_snd, withModelE_snd]

theorem fva_step_snd (solveV : Model → List String → Except Unit (List (String × ℚ × ℚ)))
    (reaction_list : List String)
    (acc : List (List (String × ℚ × ℚ)) × Model) (m : Medium) :
    (fva_step solveV reaction_list acc m).2 = acc.2 := by
  rw [fva_step, tryAppend_snd, withModelE_snd]

theorem foldl_snd_invariant {α β : Type}
    (f : List α × Model → β → List α × Model)
    (hf : ∀ acc b, (f acc b).2 = acc.2) :
    ∀ (l : List β) (acc : List α × Model), (l.foldl f acc).2 = acc.2 := by
  intro l
  induction l with
  | nil => intro acc; rfl
  | cons hd tl ih =>
    intro acc
    rw [List.foldl_cons, ih, hf]

theorem is_carbon_source_snd (opt : Model → ℚ) (s : Model) (uptake : String) :
    (is_carbon_source opt s uptake).2 = s := by
  cases h : dlookup s.id init_c with
  | none => simp [is_carbon_source, h]
  | some srcs =>
    by_cases hu : uptake ∈ srcs <;> simp [is_carbon_source, h, hu]

/-- Claim C8: every feasibility or flux query leaves the shared model
unchanged.  Each of the seven operations runs its bound overrides and medium
assignments inside `with model:` blocks (embedded by `withModel` /
`withModelE`, which restore the pre-call state on both the normal and the
infeasibility exit path), so the model coming out of each call is exactly
the model that went in, for all oracles and inputs. -/
theorem model_state_restored
    (solve : Model → Except Unit (List (String × ℚ)))
    (solveV : Model → List String → Except Unit (List (String × ℚ × ℚ)))
    (essOracle : Model → List String) (opt : Model → ℚ) (s : Model)
    (media : List Medium) (reaction_list : List String) (uptake : String)
    (medium : Medium) (rand_c : List (String × ℚ)) (c_bound : ℚ)
    (ess_ex : List String) (c_sources : List (String × ℕ))
    (choices : ℕ → MediumChoice) (fuel : ℕ) (uptakes : List String) :
    (pfba_for_media solve s media).2 = s ∧
    (fva_for_media solveV s media reaction_list).2 = s ∧
    (fva_all_uptakes solveV s reaction_list).2 = s ∧
    (is_carbon_source opt s uptake).2 = s ∧
    (find_essential_exc essOracle s).2 = s ∧
    (create_medium opt s c_sources c_bound ess_ex choices fuel).2 = s ∧
    (minimize_medium opt s medium rand_c c_bound ess_ex uptakes).2 = s := by
  refine ⟨?_, ?_, rfl, is_carbon_source_snd opt s uptake, rfl, rfl, rfl⟩
  · exact foldl_snd_invariant (pfba_step solve) (pfba_step_snd solve) media ([], s)
  · exact foldl_snd_invariant (fva_step solveV reaction_list)
      (fva_step_snd solveV reaction_list) media ([], s)

/-- Pandas column mean with `skipna`: the mean of the resolved values, or
`NaN` (`none`) when no value is resolved. -/
def omean (l : List (Option ℚ)) : Option ℚ :=
  let xs := l.reduceOption
  if xs.isEmpty then none else some (xs.sum / xs.length)

/-- The thresholding `df[df < model.tolerance] = np.nan`, applied to one
cell: values below the tolerance become missing; `NaN` cells stay `NaN`
(a float `NaN < tol` comparison is false, so `NaN` cells are not touched,
and they remain missing either way). -/
def suppress (tol : ℚ) (v : Option ℚ) : Option ℚ :=
  v.bind (fun x => if x < tol then none else some x)

/-- The per-column normalization `x * (norm / x.mean(axis=0))` of
`process_fluxes`.  A column with no resolved value has mean `NaN`, which
poisons the whole column; a zero-mean column (possible only when every
resolved value is 0, since normalization runs on absolute values) divides by
zero in float arithmetic, giving `0 * inf = NaN` for every entry — both
cases make the whole column missing. -/
def colNormalize (norm : ℚ) (col : List (Option ℚ)) : List (Option ℚ) :=
  match omean col with
  | none => col.map (fun _ => none)
  | some m =>
    if m = 0 then col.map (fun _ => none)
    else col.map (Option.map (fun x => x * (norm / m)))

/-- The row mean `df.mean(axis=1)` of a column-major table at row `i`. -/
def rowMean (cols : List (List (Option ℚ))) (i : ℕ) : Option ℚ :=
  omean (cols.map (fun c => (c.get? i).join))

/-- Embedding of `process_fluxes` (`flux/process_fluxes.py` lines 116–138).
The table is column-major: `ids` is the reaction index and each element of
`cols` is one medium's flux column.  Steps: absolute values; for pfba only,
suppress values below the model's tolerance; normalize each column to the
reference norm; average across media per reaction; suppress means below the
tolerance (this step runs for every pass, pfba and fva alike); re-normalize
the resulting single column. -/
def process_fluxes (ids : List String) (cols : List (List (Option ℚ)))
    (tol norm : ℚ) (is_pfba : Bool) : List (String × Option ℚ) :=
  let cols1 := cols.map (List.map (Option.map (fun x => |x|)))
  let cols2 := if is_pfba then cols1.map (List.map (suppress tol)) else cols1
  let cols3 := cols2.map (colNormalize norm)
  let flux1 := (List.range ids.length).map (fun i => rowMean cols3 i)
  let flux2 := flux1.map (suppress tol)
  let flux3 := colNormalize norm flux2
  ids.zip flux3

/-- Modelled from the spec: the variability passes "normalize as in step 2,
but without tolerance-based suppression of low values" — in this variant no
tolerance suppression at all is applied when `is_pfba` is false, for
comparison with the source's `process_fluxes`. -/
def process_fluxes_nosupp (ids : List String) (cols : List (List (Option ℚ)))
    (tol norm : ℚ) (is_pfba : Bool) : List (String × Option ℚ) :=
  let cols1 := cols.map (List.map (Option.map (fun x => |x|)))
  let cols2 := if is_pfba then cols1.map (List.map (suppress tol)) else cols1
  let cols3 := cols2.map (colNormalize norm)
  let flux1 := (List.range ids.length).map (fun i => rowMean cols3 i)
  let flux2 := if is_pfba then flux1.map (suppress tol) else flux1
  let flux3 := colNormalize norm flux2
  ids.zip flux3

theorem omean_pair (a b : ℚ) : omean [some a, some b] = some ((a + b)/2) := by
  simp only [omean, List.reduceOption_cons_of_some, List.reduceOption_nil,
    List.isEmpty_cons, Bool.false_eq_true, if_false, List.sum_cons,
    List.sum_nil, List.length_cons, List.length_nil]
  norm_num

theorem omean_single (a : ℚ) : omean [some a] = some a := by
  simp only [omean, List.reduceOption_cons_of_some, List.reduceOption_nil,
    List.isEmpty_cons, Bool.false_eq_true, if_false, List.sum_cons,
    List.sum_nil, List.length_cons, List.length_nil]
  norm_num

theorem omean_none_some (a : ℚ) : omean [none, some a] = some a := by
  simp only [omean, List.reduceOption_cons_of_none, List.reduceOption_cons_of_some,
    List.reduceOption_nil, List.isEmpty_cons, Bool.false_eq_true, if_false,
    List.sum_cons, List.sum_nil, List.length_cons, List.length_nil]
  norm_num

theorem colNormalize_length (norm : ℚ) (col : List (Option ℚ)) :
    (colNormalize norm col).length = col.length := by
  rw [colNormalize]
  cases omean col with
  | none => rw [List.length_map]
  | some m =>
    by_cases hm : m = 0 <;> simp [hm]

theorem colNormalize_get_none (norm : ℚ) (col : List (Option ℚ)) (i : ℕ)
    (h : col.get? i = some none) :
    (colNormalize norm col).get? i = some none := by
  rw [colNormalize]
  cases omean col with
  | none => rw [List.get?_map, h]; rfl
  | some m =>
    by_cases hm : m = 0
    · simp only [hm, if_true, List.get?_map, h]; rfl
    · simp only [hm, Bool.false_eq_true, if_false, List.get?_map, h]; rfl

/-- Claim C5 (amended): in the variability passes `process_fluxes` skips the
per-medium (pre-averaging) tolerance suppression, but the post-averaging
suppression still runs: any reaction whose across-media mean of normalized
fluxes falls below the model's tolerance is set to missing, in fva passes
just as in pfba passes. -/
theorem process_fluxes_fva_suppression (ids : List String)
    (cols : List (List (Option ℚ))) (tol norm : ℚ) (i : ℕ) (v : ℚ)
    (hm : rowMean ((cols.map (List.map (Option.map (fun x => |x|)))).map
      (colNormalize norm)) i = some v)
    (hv : v < tol) (hi : i < ids.length) :
    ((process_fluxes ids cols tol norm false).map (fun rv => rv.2)).get? i =
      some none := by
  rw [process_fluxes]
  simp only [Bool.false_eq_true, if_false]
  have hflux1 : ((List.range ids.length).map (fun j =>
      rowMean ((cols.map (List.map (Option.map (fun x => |x|)))).map
        (colNormalize norm)) j)).get? i = some (some v) := by
    rw [List.get?_map, List.get?_range hi, Option.map_some', hm]
  have hsupp : suppress tol (some v) = none := by
    show (if v < tol then none else some v) = none
    rw [if_pos hv]
  have hflux2 : (((List.range ids.length).map (fun j =>
      rowMean ((cols.map (List.map (Option.map (fun x => |x|)))).map
        (colNormalize norm)) j)).map (suppress tol)).get? i = some none := by
    rw [List.get?_map, hflux1, Option.map_some', hsupp]
  have hflux3 := colNormalize_get_none norm _ i hflux2
  have hlen : (colNormalize norm (((List.range ids.length).map (fun j =>
      rowMean ((cols.map (List.map (Option.map (fun x => |x|)))).map
        (colNormalize norm)) j)).map (suppress tol))).length = ids.length := by
    rw [colNormalize_length, List.length_map, List.length_map, List.length_range]
  rw [List.map_snd_zip _ _ (le_of_eq hlen), hflux3]

/-- Witness for the amended claim C5: in an fva pass over one medium with
fluxes `1e-6` and `2`, tolerance `1e-3` and reference norm 1, the first
reaction's normalized mean `2/2000001 ≈ 1e-6` is below the tolerance and the
output records it as missing. -/
theorem process_fluxes_fva_suppression_witness :
    ((process_fluxes ["R1", "R2"] [[some (1/1000000), some 2]]
      (1/1000) 1 false).map (fun rv => rv.2)).get? 0 = some none := by
  have ha1 : |(1:ℚ)/1000000| = 1/1000000 := abs_of_pos (by norm_num)
  have ha2 : |(2:ℚ)| = 2 := abs_of_pos (by norm_num)
  have e2 : colNormalize 1 [some ((1:ℚ)/1000000), some 2] =
      [some (2/2000001), some (4000000/2000001)] := by
    have hp : ((1:ℚ)/1000000 + 2)/2 = 2000001/2000000 := by norm_num
    simp only [colNormalize, omean_pair, hp]
    norm_num
  refine process_fluxes_fva_suppression ["R1", "R2"]
    [[some (1/1000000), some 2]] (1/1000) 1 0 (2/2000001) ?_ (by norm_num)
    (by norm_num)
  simp only [List.map_cons, List.map_nil, Option.map_some', ha1, ha2, e2]
  simp only [rowMean, List.map_cons, List.map_nil, List.get?, Option.join]
  exact omean_single _

/-- Counterexample to claim C5 as stated: on the same fva table the source's
`process_fluxes` returns `R1` as missing (its normalized mean `2/2000001` is
below the tolerance `1/1000` and the post-averaging suppression also runs in
fva mode), whereas the spec-modelled variant without tolerance suppression
resolves `R1`; the two outputs differ. -/
theorem process_fluxes_claim_counterexample :
    process_fluxes ["R1", "R2"] [[some (1/1000000), some 2]] (1/1000) 1 false =
      [("R1", none), ("R2", some 1)] ∧
    process_fluxes_nosupp ["R1", "R2"] [[some (1/1000000), some 2]]
        (1/1000) 1 false =
      [("R1", some (2/2000001)), ("R2", some (4000000/2000001))] ∧
    ¬ (process_fluxes ["R1", "R2"] [[some (1/1000000), some 2]] (1/1000) 1 false =
      process_fluxes_nosupp ["R1", "R2"] [[some (1/1000000), some 2]]
        (1/1000) 1 false) := by
  have ha1 : |(1:ℚ)/1000000| = 1/1000000 := abs_of_pos (by norm_num)
  have ha2 : |(2:ℚ)| = 2 := abs_of_pos (by norm_num)
  have e2 : colNormalize 1 [some ((1:ℚ)/1000000), some 2] =
      [some (2/2000001), some (4000000/2000001)] := by
    have hp : ((1:ℚ)/1000000 + 2)/2 = 2000001/2000000 := by norm_num
    simp only [colNormalize, omean_pair, hp]
    norm_num
  have hrange : List.range 2 = [0, 1] := rfl
  have er0 : rowMean [[some ((2:ℚ)/2000001), some (4000000/2000001)]] 0 =
      some (2/2000001) := by
    simp only [rowMean, List.map_cons, List.map_nil, List.get?, Option.join]
    exact omean_single _
  have er1 : rowMean [[some ((2:ℚ)/2000001), some (4000000/2000001)]] 1 =
      some (4000000/2000001) := by
    simp only [rowMean, List.map_cons, List.map_nil, List.get?, Option.join]
    exact omean_single _
  have hcode : process_fluxes ["R1", "R2"] [[some (1/1000000), some 2]]
      (1/1000) 1 false = [("R1", none), ("R2", some 1)] := by
    have e3 : colNormalize 1 [(none : Option ℚ), some (4000000/2000001)] =
        [none, some 1] := by
      simp only [colNormalize, omean_none_some]
      norm_num
    simp only [process_fluxes, List.map_cons, List.map_nil, Bool.false_eq_true,
      if_false, Option.map_some', ha1, ha2, e2, List.length_cons, List.length_nil]
    rw [hrange]
    simp only [List.map_cons, List.map_nil, er0, er1]
    have es0 : suppress (1/1000) (some ((2:ℚ)/2000001)) = none := by
      simp only [suppress, Option.bind_some]
      norm_num
    have es1 : suppress (1/1000) (some ((4000000:ℚ)/2000001)) =
        some (4000000/2000001) := by
      simp only [suppress, Option.bind_some]
      norm_num
    rw [es0, es1, e3]
    rfl
  have hspec : process_fluxes_nosupp ["R1", "R2"] [[some (1/1000000), some 2]]
      (1/1000) 1 false =
      [("R1", some (2/2000001)), ("R2", some (4000000/2000001))] := by
    have e3 : colNormalize 1 [some ((2:ℚ)/2000001), some (4000000/2000001)] =
        [some (2/2000001), some (4000000/2000001)] := by
      have hp : ((2:ℚ)/2000001 + 4000000/2000001)/2 = 1 := by norm_num
      simp only [colNormalize, omean_pair, hp]
      norm_num
    simp only [process_fluxes_nosupp, List.map_cons, List.map_nil,
      Bool.false_eq_true, if_false, Option.map_some', ha1, ha2, e2,
      List.length_cons, List.length_nil]
    rw [hrange]
    simp only [List.map_cons, List.map_nil, er0, er1, e3]
    rfl
  refine ⟨hcode, hspec, ?_⟩
  rw [hcode, hspec]
  simp

/-- One row of a per-model flux frame inside `merge_fluxes`: the `flux`
column and the `from_fva` tag column (missing where the flux is missing). -/
structure TaggedRow where
  flux : Option ℚ
  from_fva : Option Bool
deriving DecidableEq

/-- `DataFrame.fillna` between the two variability passes:
`fva_dfs[model.id] = fva_m_df.fillna(fva_a_df)` in `get_predicted_fluxes`
(`flux/process_fluxes.py` line 52).  The result keeps the caller's index;
missing cells are filled from the row with the same index label. -/
def fillnaOpt (a b : List (String × Option ℚ)) : List (String × Option ℚ) :=
  a.map (fun rv => (rv.1, if rv.2.isSome then rv.2 else (dlookup rv.1 b).join))

/-- The tagging `df.loc[df.flux.notna(), "from_fva"] = False/True` of
`merge_fluxes` (`flux/process_fluxes.py` lines 92–95): rows with a resolved
flux get the origin flag, all other rows keep a missing tag. -/
def tagTable (isfva : Bool) (t : List (String × Option ℚ)) :
    List (String × TaggedRow) :=
  t.map (fun rv => (rv.1, ⟨rv.2, if rv.2.isSome then some isfva else none⟩))

/-- The per-model fill `pfba_dfs[k].fillna(fva_dfs[k])` of `merge_fluxes`
(`flux/process_fluxes.py` lines 98–100): each missing cell of the pfba frame
is filled from the fva frame's row with the same index label; resolved cells
are kept. -/
def fillTagged (a b : List (String × TaggedRow)) : List (String × TaggedRow) :=
  a.map (fun rr => (rr.1,
    { flux := if rr.2.flux.isSome then rr.2.flux
        else (dlookup rr.1 b).bind (fun r => r.flux),
      from_fva := if rr.2.from_fva.isSome then rr.2.from_fva
        else (dlookup rr.1 b).bind (fun r => r.from_fva) }))

/-- The per-model merge of `merge_fluxes`: tag both frames, then fill the
pfba frame's gaps from the (already merged) fva frame. -/
def mergeModel (pf fv : List (String × Option ℚ)) : List (String × TaggedRow) :=
  fillTagged (tagTable false pf) (tagTable true fv)

/-- One row of the cross-model flux table produced by `merge_fluxes`:
reaction id, flux, origin tag and organism (`ORGANISM` column). -/
structure MergedRow where
  bigg : String
  flux : Option ℚ
  from_fva : Option Bool
  organism : String
deriving DecidableEq

/-- Embedding of `merge_fluxes` (`flux/process_fluxes.py` lines 77–113):
per model, tag and merge the pfba and fva frames, attach the organism name
(the external `get_organisms` lookup is the `organisms` parameter),
concatenate all models' tables and drop rows that still miss a value.
`tables` maps each model id to its pfba frame and its merged fva frame. -/
def merge_fluxes
    (tables : List (String × List (String × Option ℚ) × List (String × Option ℚ)))
    (organisms : String → String) : List MergedRow :=
  (tables.bind (fun t => (mergeModel t.2.1 t.2.2).map
    (fun rr => ⟨rr.1, rr.2.flux, rr.2.from_fva, organisms t.1⟩))).filter
    (fun r => r.flux.isSome && r.from_fva.isSome)

theorem fillTagged_keeps (b : List (String × TaggedRow)) (r : String) (v : ℚ) :
    ∀ pf : List (String × Option ℚ), dlookup r pf = some (some v) →
      dlookup r (fillTagged (tagTable false pf) b) = some ⟨some v, some false⟩ := by
  intro pf
  induction pf with
  | nil => intro h; cases h
  | cons hd tl ih =>
    intro h
    by_cases hk : hd.1 = r
    · rw [dlookup, if_pos hk] at h
      have hv : hd.2 = some v := Option.some.inj h
      simp [fillTagged, tagTable, dlookup, hk, hv]
    · rw [dlookup, if_neg hk] at h
      simp only [fillTagged, tagTable, List.map_cons, dlookup, hk, if_false]
      exact ih h

/-- Claim C2: when the parsimonious pass resolved a flux for a reaction, the
per-model merge keeps exactly that value and tags it `from_fva = False`,
whatever the two variability fallbacks produced for the same reaction. -/
theorem merge_fluxes_pfba_priority (pf fvm fva : List (String × Option ℚ))
    (r : String) (v : ℚ) (h : dlookup r pf = some (some v)) :
    dlookup r (mergeModel pf (fillnaOpt fvm fva)) = some ⟨some v, some false⟩ :=
  fillTagged_keeps (tagTable true (fillnaOpt fvm fva)) r v pf h

/-- Witness for claim C2: pfba resolved flux 2 for `R1`, the two variability
passes produced 5 and 7, and the merged row is `(2, from_fva = False)`. -/
theorem merge_fluxes_pfba_priority_witness :
    dlookup "R1" (mergeModel [("R1", some 2)]
      (fillnaOpt [("R1", some 5)] [("R1", some 7)])) =
      some ⟨some 2, some false⟩ :=
  merge_fluxes_pfba_priority [("R1", some 2)] [("R1", some 5)] [("R1", some 7)]
    "R1" 2 (by simp [dlookup])

/-- One row of the flux table entering `map_kcat_to_fluxes`
(`BiGG ID`, `ORGANISM`, `flux`, `from_fva`; all resolved after the final
`dropna` of `merge_fluxes`). -/
structure FluxIn where
  bigg : String
  organism : String
  flux : ℚ
  from_fva : Bool
deriving DecidableEq

/-- A flux row after `map_kcat_to_fluxes` has added the `log10_flux` column
and `add_lineage` has added the four lineage columns. -/
structure FluxEntry where
  bigg : String
  organism : String
  flux : ℚ
  from_fva : Bool
  log10_flux : ℚ
  lin0 : String
  lin1 : String
  lin2 : String
  lin3 : String
deriving DecidableEq

/-- The column `lineage i` of a flux row. -/
def linAt (f : FluxEntry) : ℕ → String
  | 0 => f.lin0
  | 1 => f.lin1
  | 2 => f.lin2
  | 3 => f.lin3
  | _ => ""

/-- One row of the kcat table (`load_kcat_dataframe` output: `BiGG ID`,
`ORGANISM`, `log10_kcat` and four lineage columns; the csv loading,
confidence filtering and taxonomy lookup are external, so the table is a
parameter). -/
structure KcatEntry where
  bigg : String
  organism : String
  log10_kcat : ℚ
  lin0 : String
  lin1 : String
  lin2 : String
  lin3 : String
deriving DecidableEq

/-- One row of the merged kcat–flux table (`exact_df`): the kcat columns
plus the flux-side columns, which are missing until some tier fills them. -/
structure MappedRow where
  bigg : String
  organism : String
  log10_kcat : ℚ
  lin0 : String
  lin1 : String
  lin2 : String
  lin3 : String
  flux : Option ℚ
  from_fva : Option Bool
  log10_flux : Option ℚ
deriving DecidableEq

/-- The column `lineage i` of a merged row (inherited from the kcat side:
the exact merge runs before `add_lineage` is applied to the flux table, so
`exact_df`'s lineage columns are the kcat table's). -/
def mlinAt (m : MappedRow) : ℕ → String
  | 0 => m.lin0
  | 1 => m.lin1
  | 2 => m.lin2
  | 3 => m.lin3
  | _ => ""

/-- Lines 23 and 30 of `kcat_flux_mapping/mapping.py` applied to one flux
row: add `log10_flux = log10(|flux|)` (`log10fn` is the external `np.log10`)
and the four lineage columns (`linOf` is the external taxonomy lookup of
`add_lineage`, yielding the empty string for unresolvable organisms). -/
def mkFluxEntry (log10fn : ℚ → ℚ) (linOf : String → ℕ → String)
    (r : FluxIn) : FluxEntry :=
  { bigg := r.bigg, organism := r.organism, flux := r.flux,
    from_fva := r.from_fva, log10_flux := log10fn |r.flux|,
    lin0 := linOf r.organism 0, lin1 := linOf r.organism 1,
    lin2 := linOf r.organism 2, lin3 := linOf r.organism 3 }

/-- Build one `exact_df` row from a kcat row and optional flux-side cells. -/
def mkMapped (k : KcatEntry) (fl : Option ℚ) (fv : Option Bool)
    (lf : Option ℚ) : MappedRow :=
  { bigg := k.bigg, organism := k.organism, log10_kcat := k.log10_kcat,
    lin0 := k.lin0, lin1 := k.lin1, lin2 := k.lin2, lin3 := k.lin3,
    flux := fl, from_fva := fv, log10_flux := lf }

/-- The exact tier `pd.merge(kcat_df, flux_df, how="left", on=['BiGG ID',
'ORGANISM'])` (`mapping.py` lines 26–27): every kcat row is kept; each
matching flux row yields one output row, and a kcat row without a match
yields one row with missing flux cells. -/
def exactMerge (kcat : List KcatEntry) (ft : List FluxEntry) :
    List MappedRow :=
  kcat.bind (fun k =>
    let ms := ft.filter (fun f => f.bigg = k.bigg ∧ f.organism = k.organism)
    if ms.isEmpty then [mkMapped k none none none]
    else ms.map (fun f =>
      mkMapped k (some f.flux) (some f.from_fva) (some f.log10_flux)))

/-- The groupby `.mean()` over a group of flux rows: mean flux and mean
`log10_flux`, or no row at all when the group is empty. -/
def groupMean2 (g : List FluxEntry) : Option (ℚ × ℚ) :=
  if g.isEmpty then none
  else some ((g.map (fun f => f.flux)).sum / g.length,
    (g.map (fun f => f.log10_flux)).sum / g.length)

/-- One row of `lin_df = flux_df.groupby(["BiGG ID", "lineage i",
"from_fva"]).mean()` at key `(b, l, fv)` (`mapping.py` lines 31–35). -/
def linMean (ft : List FluxEntry) (i : ℕ) (b l : String) (fv : Bool) :
    Option (ℚ × ℚ) :=
  groupMean2 (ft.filter (fun f => f.bigg = b ∧ linAt f i = l ∧ f.from_fva = fv))

/-- One row of `inexact_df = flux_df.groupby(["BiGG ID",
"from_fva"]).mean()` at key `(b, fv)` (`mapping.py` lines 44–45). -/
def inexMean (ft : List FluxEntry) (b : String) (fv : Bool) :
    Option (ℚ × ℚ) :=
  groupMean2 (ft.filter (fun f => f.bigg = b ∧ f.from_fva = fv))

/-- `DataFrame.fillna(other)` applied to one row and one aligned source row:
each missing flux-side cell is filled from the source (whose `from_fva`
column holds the group's origin flag); resolved cells are never touched. -/
def fillCells (m : MappedRow) (src : Option (ℚ × ℚ)) (fv : Bool) :
    MappedRow :=
  match src with
  | none => m
  | some fl =>
    { m with flux := if m.flux.isSome then m.flux else some fl.1,
             from_fva := if m.from_fva.isSome then m.from_fva else some fv,
             log10_flux := if m.log10_flux.isSome then m.log10_flux else some fl.2 }

/-- One lineage-tier pass `exact_df.fillna(lin_df[lin_df.from_fva ==
False]).fillna(lin_df[lin_df.from_fva == True])` at level `i`
(`mapping.py` lines 37–41): rows align on the index `(BiGG ID, lineage i)`,
preferring the non-variability group average. -/
def fillLevel (ft : List FluxEntry) (i : ℕ) (t : List MappedRow) :
    List MappedRow :=
  t.map (fun m =>
    fillCells (fillCells m (linMean ft i m.bigg (mlinAt m i) false) false)
      (linMean ft i m.bigg (mlinAt m i) true) true)

/-- The inexact tier (`mapping.py` lines 44–50): align on `BiGG ID` alone,
preferring the non-variability group average. -/
def fillInexact (ft : List FluxEntry) (t : List MappedRow) :
    List MappedRow :=
  t.map (fun m =>
    fillCells (fillCells m (inexMean ft m.bigg false) false)
      (inexMean ft m.bigg true) true)

/-- The final `kcat_flux_df.dropna()` (`mapping.py` line 53): keep rows with
all flux-side cells resolved (the kcat-side cells are always present). -/
def dropnaMapped (t : List MappedRow) : List MappedRow :=
  t.filter (fun m => m.flux.isSome && m.from_fva.isSome && m.log10_flux.isSome)

/-- Embedding of `map_kcat_to_fluxes` (`kcat_flux_mapping/mapping.py` lines
5–55): exact tier, then the lineage tiers `for i in range(3, 0, -1)` — the
levels 3, 2, 1, most specific first; level 0 is not visited — then the
inexact tier, then `dropna`. -/
def map_kcat_to_fluxes (log10fn : ℚ → ℚ) (linOf : String → ℕ → String)
    (kcat : List KcatEntry) (fluxtbl : List FluxIn) : List MappedRow :=
  let ft := fluxtbl.map (mkFluxEntry log10fn linOf)
  let e1 := exactMerge kcat ft
  let e2 := [3, 2, 1].foldl (fun t i => fillLevel ft i t) e1
  let e3 := fillInexact ft e2
  dropnaMapped e3

/-- Modelled from the spec: "Lineage, levels 3→0 (most specific to least
specific): for each lineage level in turn …" — the same pipeline but with
the lineage loop visiting levels 3, 2, 1 and 0, for comparison with the
source's `map_kcat_to_fluxes`, whose loop `range(3, 0, -1)` stops at 1. -/
def map_kcat_to_fluxes_spec (log10fn : ℚ → ℚ) (linOf : String → ℕ → String)
    (kcat : List KcatEntry) (fluxtbl : List FluxIn) : List MappedRow :=
  let ft := fluxtbl.map (mkFluxEntry log10fn linOf)
  let e1 := exactMerge kcat ft
  let e2 := [3, 2, 1, 0].foldl (fun t i => fillLevel ft i t) e1
  let e3 := fillInexact ft e2
  dropnaMapped e3

theorem fillCells_flux_some (m : MappedRow) (src : Option (ℚ × ℚ)) (fv : Bool)
    (h : m.flux.isSome) : (fillCells m src fv).flux = m.flux := by
  cases src with
  | none => rfl
  | some fl => simp [fillCells, h]

theorem fillCells2_flux_some (m : MappedRow) (s1 s2 : Option (ℚ × ℚ))
    (h : m.flux.isSome) :
    (fillCells (fillCells m s1 false) s2 true).flux = m.flux := by
  have h1 := fillCells_flux_some m s1 false h
  have h1s : (fillCells m s1 false).flux.isSome := by rw [h1]; exact h
  rw [fillCells_flux_some _ s2 true h1s, h1]

theorem fillLevel_get_flux (ft : List FluxEntry) (i : ℕ) (t : List MappedRow)
    (j : ℕ) (m : MappedRow) (h : t.get? j = some m) (hm : m.flux.isSome) :
    ∃ m', (fillLevel ft i t).get? j = some m' ∧ m'.flux = m.flux := by
  refine ⟨fillCells (fillCells m (linMean ft i m.bigg (mlinAt m i) false) false)
    (linMean ft i m.bigg (mlinAt m i) true) true, ?_, ?_⟩
  · rw [fillLevel, List.get?_map, h, Option.map_some']
  · exact fillCells2_flux_some m _ _ hm

theorem fillInexact_get_flux (ft : List FluxEntry) (t : List MappedRow)
    (j : ℕ) (m : MappedRow) (h : t.get? j = some m) (hm : m.flux.isSome) :
    ∃ m', (fillInexact ft t).get? j = some m' ∧ m'.flux = m.flux := by
  refine ⟨fillCells (fillCells m (inexMean ft m.bigg false) false)
    (inexMean ft m.bigg true) true, ?_, ?_⟩
  · rw [fillInexact, List.get?_map, h, Option.map_some']
  · exact fillCells2_flux_some m _ _ hm

/-- Claim C1 (amended): `map_kcat_to_fluxes` runs the lineage tier over
levels 3, 2, 1 only (`range(3, 0, -1)` never visits level 0), and each fill
pass — the remaining lineage levels and the inexact tier — only fills rows
still missing a flux value, so a value filled at a more specific level is
never overwritten by a later, less specific pass. -/
theorem map_kcat_lineage_levels (log10fn : ℚ → ℚ)
    (linOf : String → ℕ → String) (kcat : List KcatEntry)
    (fluxtbl : List FluxIn) :
    (map_kcat_to_fluxes log10fn linOf kcat fluxtbl =
      dropnaMapped (fillInexact (fluxtbl.map (mkFluxEntry log10fn linOf))
        (fillLevel (fluxtbl.map (mkFluxEntry log10fn linOf)) 1
          (fillLevel (fluxtbl.map (mkFluxEntry log10fn linOf)) 2
            (fillLevel (fluxtbl.map (mkFluxEntry log10fn linOf)) 3
              (exactMerge kcat (fluxtbl.map (mkFluxEntry log10fn linOf)))))))) ∧
    (∀ (ft : List FluxEntry) (t : List MappedRow) (j : ℕ) (m : MappedRow),
      (fillLevel ft 3 t).get? j = some m → m.flux.isSome →
      ∃ m', (fillInexact ft (fillLevel ft 1 (fillLevel ft 2
        (fillLevel ft 3 t)))).get? j = some m' ∧ m'.flux = m.flux) := by
  constructor
  · rfl
  · intro ft t j m h3 hm
    obtain ⟨m2, h2, e2⟩ := fillLevel_get_flux ft 2 (fillLevel ft 3 t) j m h3 hm
    have hm2 : m2.flux.isSome := by rw [e2]; exact hm
    obtain ⟨m1, h1, e1⟩ := fillLevel_get_flux ft 1 _ j m2 h2 hm2
    have hm1 : m1.flux.isSome := by rw [e1]; exact hm2
    obtain ⟨mx, hx, ex⟩ := fillInexact_get_flux ft _ j m1 h1 hm1
    exact ⟨mx, hx, by rw [ex, e1, e2]⟩

/-- Witness for the amended claim C1: a single row already resolved with
flux 5 before the level-3 fill keeps that flux through the remaining lineage
levels and the inexact tier. -/
theorem map_kcat_lineage_levels_witness :
    ∃ m', (fillInexact [] (fillLevel [] 1 (fillLevel [] 2 (fillLevel [] 3
      [mkMapped ⟨"R1", "OX", 5, "", "", "", ""⟩
        (some 5) (some false) (some 5)])))).get? 0 = some m' ∧
      m'.flux = (mkMapped ⟨"R1", "OX", 5, "", "", "", ""⟩
        (some 5) (some false) (some 5)).flux :=
  (map_kcat_lineage_levels (fun x => x) (fun _ _ => "") [] []).2 []
    [mkMapped ⟨"R1", "OX", 5, "", "", "", ""⟩ (some 5) (some false) (some 5)]
    0 (mkMapped ⟨"R1", "OX", 5, "", "", "", ""⟩ (some 5) (some false) (some 5))
    (by simp [fillLevel, linMean, groupMean2, fillCells]) (by rfl)

/-- A concrete lineage table for the level-0 counterexample: `OF1` shares
lineage level 0 (`L0`) with the kcat record's organism, `OF2` does not. -/
def linOfEx (o : String) (i : ℕ) : String :=
  if o = "OF1" then (if i = 0 then "L0" else "FA")
  else if o = "OF2" then (if i = 0 then "M0" else "GA")
  else ""

/-- Counterexample to claim C1 as stated: a kcat record matching a flux
record at lineage level 0 only.  The source's loop `range(3, 0, -1)` never
visits level 0, so the record falls through to the inexact tier and receives
the all-organism average 2; a pipeline that processed "3 down to 0" (the
spec-modelled variant) would fill the level-0 group average 1 instead.  The
two outputs differ. -/
theorem map_kcat_level0_counterexample :
    map_kcat_to_fluxes (fun x => x) linOfEx
      [⟨"R1", "OX", 5, "L0", "KA", "KB", "KC"⟩]
      [⟨"R1", "OF1", 1, false⟩, ⟨"R1", "OF2", 3, false⟩] =
      [⟨"R1", "OX", 5, "L0", "KA", "KB", "KC", some 2, some false, some 2⟩] ∧
    map_kcat_to_fluxes_spec (fun x => x) linOfEx
      [⟨"R1", "OX", 5, "L0", "KA", "KB", "KC"⟩]
      [⟨"R1", "OF1", 1, false⟩, ⟨"R1", "OF2", 3, false⟩] =
      [⟨"R1", "OX", 5, "L0", "KA", "KB", "KC", some 1, some false, some 1⟩] ∧
    ¬ (map_kcat_to_fluxes (fun x => x) linOfEx
        [⟨"R1", "OX", 5, "L0", "KA", "KB", "KC"⟩]
        [⟨"R1", "OF1", 1, false⟩, ⟨"R1", "OF2", 3, false⟩] =
      map_kcat_to_fluxes_spec (fun x => x) linOfEx
        [⟨"R1", "OX", 5, "L0", "KA", "KB", "KC"⟩]
        [⟨"R1", "OF1", 1, false⟩, ⟨"R1", "OF2", 3, false⟩]) := by
  have heval :
      ([⟨"R1", "OF1", 1, false⟩, ⟨"R1", "OF2", 3, false⟩] : List FluxIn).map
        (mkFluxEntry (fun x => x) linOfEx) =
      [⟨"R1", "OF1", 1, false, 1, "L0", "FA", "FA", "FA"⟩,
       ⟨"R1", "OF2", 3, false, 3, "M0", "GA", "GA", "GA"⟩] := by
    have ha1 : |(1:ℚ)| = 1 := abs_of_pos (by norm_num)
    have ha3 : |(3:ℚ)| = 3 := abs_of_pos (by norm_num)
    simp [mkFluxEntry, linOfEx, ha1, ha3]
  have hexact :
      exactMerge [⟨"R1", "OX", 5, "L0", "KA", "KB", "KC"⟩]
        [⟨"R1", "OF1", 1, false, 1, "L0", "FA", "FA", "FA"⟩,
         ⟨"R1", "OF2", 3, false, 3, "M0", "GA", "GA", "GA"⟩] =
      [⟨"R1", "OX", 5, "L0", "KA", "KB", "KC", none, none, none⟩] := by
    simp [exactMerge, mkMapped]
  have hlin3 :
      fillLevel [⟨"R1", "OF1", 1, false, 1, "L0", "FA", "FA", "FA"⟩,
         ⟨"R1", "OF2", 3, false, 3, "M0", "GA", "GA", "GA"⟩] 3
        [⟨"R1", "OX", 5, "L0", "KA", "KB", "KC", none, none, none⟩] =
      [⟨"R1", "OX", 5, "L0", "KA", "KB", "KC", none, none, none⟩] := by
    simp [fillLevel, linMean, groupMean2, linAt, mlinAt, fillCells]
  have hlin2 :
      fillLevel [⟨"R1", "OF1", 1, false, 1, "L0", "FA", "FA", "FA"⟩,
         ⟨"R1", "OF2", 3, false, 3, "M0", "GA", "GA", "GA"⟩] 2
        [⟨"R1", "OX", 5, "L0", "KA", "KB", "KC", none, none, none⟩] =
      [⟨"R1", "OX", 5, "L0", "KA", "KB", "KC", none, none, none⟩] := by
    simp [fillLevel, linMean, groupMean2, linAt, mlinAt, fillCells]
  have hlin1 :
      fillLevel [⟨"R1", "OF1", 1, false, 1, "L0", "FA", "FA", "FA"⟩,
         ⟨"R1", "OF2", 3, false, 3, "M0", "GA", "GA", "GA"⟩] 1
        [⟨"R1", "OX", 5, "L0", "KA", "KB", "KC", none, none, none⟩] =
      [⟨"R1", "OX", 5, "L0", "KA", "KB", "KC", none, none, none⟩] := by
    simp [fillLevel, linMean, groupMean2, linAt, mlinAt, fillCells]
  have hlin0 :
      fillLevel [⟨"R1", "OF1", 1, false, 1, "L0", "FA", "FA", "FA"⟩,
         ⟨"R1", "OF2", 3, false, 3, "M0", "GA", "GA", "GA"⟩] 0
        [⟨"R1", "OX", 5, "L0", "KA", "KB", "KC", none, none, none⟩] =
      [⟨"R1", "OX", 5, "L0", "KA", "KB", "KC", some 1, some false, some 1⟩] := by
    simp [fillLevel, linMean, groupMean2, linAt, mlinAt, fillCells]
  have hinex :
      fillInexact [⟨"R1", "OF1", 1, false, 1, "L0", "FA", "FA", "FA"⟩,
         ⟨"R1", "OF2", 3, false, 3, "M0", "GA", "GA", "GA"⟩]
        [⟨"R1", "OX", 5, "L0", "KA", "KB", "KC", none, none, none⟩] =
      [⟨"R1", "OX", 5, "L0", "KA", "KB", "KC", some 2, some false, some 2⟩] := by
    simp [fillInexact, inexMean, groupMean2, fillCells]
    norm_num
  have hinex1 :
      fillInexact [⟨"R1", "OF1", 1, false, 1, "L0", "FA", "FA", "FA"⟩,
         ⟨"R1", "OF2", 3, false, 3, "M0", "GA", "GA", "GA"⟩]
        [⟨"R1", "OX", 5, "L0", "KA", "KB", "KC", some 1, some false, some 1⟩] =
      [⟨"R1", "OX", 5, "L0", "KA", "KB", "KC", some 1, some false, some 1⟩] := by
    simp [fillInexact, inexMean, groupMean2, fillCells]
  have hcode : map_kcat_to_fluxes (fun x => x) linOfEx
      [⟨"R1", "OX", 5, "L0", "KA", "KB", "KC"⟩]
      [⟨"R1", "OF1", 1, false⟩, ⟨"R1", "OF2", 3, false⟩] =
      [⟨"R1", "OX", 5, "L0", "KA", "KB", "KC", some 2, some false, some 2⟩] := by
    rw [map_kcat_to_fluxes]
    simp only [heval, List.foldl_cons, List.foldl_nil, hexact, hlin3,
      hlin2, hlin1, hinex]
    simp [dropnaMapped]
  have hspec : map_kcat_to_fluxes_spec (fun x => x) linOfEx
      [⟨"R1", "OX", 5, "L0", "KA", "KB", "KC"⟩]
      [⟨"R1", "OF1", 1, false⟩, ⟨"R1", "OF2", 3, false⟩] =
      [⟨"R1", "OX", 5, "L0", "KA", "KB", "KC", some 1, some false, some 1⟩] := by
    rw [map_kcat_to_fluxes_spec]
    simp only [heval, List.foldl_cons, List.foldl_nil, hexact, hlin3,
      hlin2, hlin1, hlin0, hinex1]
    simp [dropnaMapped]
  refine ⟨hcode, hspec, ?_⟩
  rw [hcode, hspec]
  simp

/-- The flux table handed from `merge_fluxes` to `map_kcat_to_fluxes`: after
the final `dropna` every kept row has both cells resolved, and its columns
`BiGG ID`, `ORGANISM`, `flux`, `from_fva` become one `FluxIn` row. -/
def fluxInOfMerged (t : List MergedRow) : List FluxIn :=
  t.filterMap (fun r => r.flux.bind (fun f =>
    r.from_fva.map (fun b => ⟨r.bigg, r.organism, f, b⟩)))

theorem fillLevel_length (ft : List FluxEntry) (i : ℕ) (t : List MappedRow) :
    (fillLevel ft i t).length = t.length := by
  rw [fillLevel, List.length_map]

theorem fillInexact_length (ft : List FluxEntry) (t : List MappedRow) :
    (fillInexact ft t).length = t.length := by
  rw [fillInexact, List.length_map]

theorem map_kcat_length_le (log10fn : ℚ → ℚ) (linOf : String → ℕ → String)
    (kcat : List KcatEntry) (fluxtbl : List FluxIn) :
    (map_kcat_to_fluxes log10fn linOf kcat fluxtbl).length ≤
      (exactMerge kcat (fluxtbl.map (mkFluxEntry log10fn linOf))).length := by
  rw [map_kcat_to_fluxes, dropnaMapped]
  refine le_trans (List.length_filter_le _ _) (le_of_eq ?_)
  rw [List.foldl_cons, List.foldl_cons, List.foldl_cons, List.foldl_nil,
    fillInexact_length, fillLevel_length, fillLevel_length, fillLevel_length]

theorem mergeModel_length (pf fv : List (String × Option ℚ)) :
    (mergeModel pf fv).length = pf.length := by
  simp [mergeModel, fillTagged, tagTable]

theorem merge_fluxes_length_le
    (tables : List (String × List (String × Option ℚ) × List (String × Option ℚ)))
    (organisms : String → String) :
    (merge_fluxes tables organisms).length ≤
      (tables.map (fun t => t.2.1.length)).sum := by
  rw [merge_fluxes]
  refine le_trans (List.length_filter_le _ _) (le_of_eq ?_)
  rw [List.length_bind]
  congr 1
  apply List.map_congr_left
  intro t _
  simp [Function.comp, mergeModel_length]

/-- Claim C7 (amended): the merged flux table's row count is at most the sum
of the per-model parsimonious-pass row counts (the per-model merge keeps the
pfba index and the final `dropna` only removes rows); and the final mapped
table's row count is at most the row count of the exact-tier left merge of
the kcat table with the flux table (the tier fills preserve row count and
the final `dropna` only removes rows).  The mapped table is kcat-driven, so
no bound against the flux table's own row count holds. -/
theorem row_counts_monotone (log10fn : ℚ → ℚ) (linOf : String → ℕ → String)
    (kcat : List KcatEntry)
    (tables : List (String × List (String × Option ℚ) × List (String × Option ℚ)))
    (organisms : String → String) :
    (map_kcat_to_fluxes log10fn linOf kcat
      (fluxInOfMerged (merge_fluxes tables organisms))).length ≤
      (exactMerge kcat ((fluxInOfMerged (merge_fluxes tables organisms)).map
        (mkFluxEntry log10fn linOf))).length ∧
    (merge_fluxes tables organisms).length ≤
      (tables.map (fun t => t.2.1.length)).sum :=
  ⟨map_kcat_length_le log10fn linOf kcat _,
   merge_fluxes_length_le tables organisms⟩

/-- Counterexample to claim C7 as stated: one model whose parsimonious pass
resolved a single reaction gives a merged flux table with one row, yet two
kcat records for that reaction (different organisms) both get filled from
the lineage group average, so the final mapped table has two rows — more
than the flux table it received. -/
theorem row_counts_claim_counterexample :
    (merge_fluxes [("m1", ([("R1", some 1)], []))] (fun _ => "OF1")).length = 1 ∧
    (map_kcat_to_fluxes (fun x => x) (fun _ _ => "")
      [⟨"R1", "O1", 5, "", "", "", ""⟩, ⟨"R1", "O2", 6, "", "", "", ""⟩]
      (fluxInOfMerged (merge_fluxes [("m1", ([("R1", some 1)], []))]
        (fun _ => "OF1")))).length = 2 ∧
    ¬ ((map_kcat_to_fluxes (fun x => x) (fun _ _ => "")
      [⟨"R1", "O1", 5, "", "", "", ""⟩, ⟨"R1", "O2", 6, "", "", "", ""⟩]
      (fluxInOfMerged (merge_fluxes [("m1", ([("R1", some 1)], []))]
        (fun _ => "OF1")))).length ≤
      (merge_fluxes [("m1", ([("R1", some 1)], []))] (fun _ => "OF1")).length) := by
  have hmerged : merge_fluxes [("m1", ([("R1", some 1)], []))] (fun _ => "OF1") =
      [⟨"R1", some 1, some false, "OF1"⟩] := by
    simp [merge_fluxes, mergeModel, fillTagged, tagTable, dlookup]
  have hconv : fluxInOfMerged [⟨"R1", some 1, some false, "OF1"⟩] =
      [⟨"R1", "OF1", 1, false⟩] := by
    simp [fluxInOfMerged]
  have hft : ([⟨"R1", "OF1", 1, false⟩] : List FluxIn).map
      (mkFluxEntry (fun x => x) (fun _ _ => "")) =
      [⟨"R1", "OF1", 1, false, 1, "", "", "", ""⟩] := by
    have ha1 : |(1:ℚ)| = 1 := abs_of_pos (by norm_num)
    simp [mkFluxEntry, ha1]
  have hexact : exactMerge
      [⟨"R1", "O1", 5, "", "", "", ""⟩, ⟨"R1", "O2", 6, "", "", "", ""⟩]
      [⟨"R1", "OF1", 1, false, 1, "", "", "", ""⟩] =
      [⟨"R1", "O1", 5, "", "", "", "", none, none, none⟩,
       ⟨"R1", "O2", 6, "", "", "", "", none, none, none⟩] := by
    simp [exactMerge, mkMapped]
  have hlin3 : fillLevel [⟨"R1", "OF1", 1, false, 1, "", "", "", ""⟩] 3
      [⟨"R1", "O1", 5, "", "", "", "", none, none, none⟩,
       ⟨"R1", "O2", 6, "", "", "", "", none, none, none⟩] =
      [⟨"R1", "O1", 5, "", "", "", "", some 1, some false, some 1⟩,
       ⟨"R1", "O2", 6, "", "", "", "", some 1, some false, some 1⟩] := by
    simp [fillLevel, linMean, groupMean2, linAt, mlinAt, fillCells]
  have hfix : ∀ i : ℕ, fillLevel [⟨"R1", "OF1", 1, false, 1, "", "", "", ""⟩] i
      [⟨"R1", "O1", 5, "", "", "", "", some 1, some false, some 1⟩,
       ⟨"R1", "O2", 6, "", "", "", "", some 1, some false, some 1⟩] =
      [⟨"R1", "O1", 5, "", "", "", "", some 1, some false, some 1⟩,
       ⟨"R1", "O2", 6, "", "", "", "", some 1, some false, some 1⟩] := by
    intro i
    simp [fillLevel, linMean, groupMean2, linAt, mlinAt, fillCells]
  have hinex : fillInexact [⟨"R1", "OF1", 1, false, 1, "", "", "", ""⟩]
      [⟨"R1", "O1", 5, "", "", "", "", some 1, some false, some 1⟩,
       ⟨"R1", "O2", 6, "", "", "", "", some 1, some false, some 1⟩] =
      [⟨"R1", "O1", 5, "", "", "", "", some 1, some false, some 1⟩,
       ⟨"R1", "O2", 6, "", "", "", "", some 1, some false, some 1⟩] := by
    simp [fillInexact, inexMean, groupMean2, fillCells]
  have hmap : (map_kcat_to_fluxes (fun x => x) (fun _ _ => "")
      [⟨"R1", "O1", 5, "", "", "", ""⟩, ⟨"R1", "O2", 6, "", "", "", ""⟩]
      (fluxInOfMerged (merge_fluxes [("m1", ([("R1", some 1)], []))]
        (fun _ => "OF1")))).length = 2 := by
    rw [hmerged, hconv, map_kcat_to_fluxes]
    simp only [hft, List.foldl_cons, List.foldl_nil, hexact, hlin3, hfix, hinex]
    simp [dropnaMapped]
  refine ⟨by rw [hmerged]; rfl, hmap, ?_⟩
  rw [hmap, hmerged]
  simp

end KcatFlux
